import Mathlib

/-!
Shallow embedding of the poll bot (src/src/TwitterPollBot.ts and
src/src/index.ts): data model, MIME resolution, poll creation with an
explicit effect trace, the in-process scheduler, and the retry wrapper
of the entry point. Numbers coming from the host language are modelled
as exact rationals, with a separate constructor for the NaN value so
that truthiness-based fallbacks are captured faithfully.
-/

/-- A host-language number: either NaN or an exact rational value. -/
inductive JSNum where
  | nan : JSNum
  | val : ℚ → JSNum
deriving DecidableEq, Repr

/-- Truthiness of a host-language number: NaN and 0 are falsy. -/
def JSNum.truthy : JSNum → Bool
  | .nan => false
  | .val q => q != 0

/-- PollData from TwitterPollBot.ts: title, options, optional duration in
hours, optional image path. -/
structure PollData where
  title : String
  options : List String
  durationHours : Option JSNum
  imagePath : Option String
deriving DecidableEq, Repr

/-- Error taxonomy used by the bot (each constructor stands for one of the
thrown Error values). -/
inductive PollError where
  | invalidPollData
  | unsupportedFormat (ext : String)
  | invalidSchedule
  | ioError (msg : String)
  | authError (code : Nat)
  | remoteError (code : Nat)
deriving DecidableEq, Repr

/-- The poll block of a tweet payload. -/
structure PollParams where
  options : List String
  duration_minutes : ℚ
deriving DecidableEq, Repr

/-- The payload of one tweet-creation call (SendTweetV2Params). -/
structure TweetParams where
  text : String
  poll : Option PollParams
  reply : Option String
  media : Option (List String)
deriving DecidableEq, Repr

/-- Observable side effects of a createPoll run: network calls and file
reads, in order. -/
inductive Effect where
  | netIdentity
  | fileRead (path : String)
  | netUpload (mime : String)
  | netTweet (params : TweetParams)
deriving DecidableEq, Repr

/-- The environment a createPoll run interacts with: the outcome of the
credential check, the file system, and the responses of the three remote
calls (media upload, image tweet, poll tweet). -/
structure Env where
  verifyResult : Except PollError Unit
  readFile : String → Except PollError Nat
  uploadResult : Except PollError String
  imagePostResult : Except PollError String
  pollPostResult : Except PollError String

/-! ### path.extname, modelled from the Node.js posix implementation

getMimeType calls path.extname on the file path; the scan below mirrors
the right-to-left loop of the Node implementation, including its special
cases (no extension for dotfiles, for a lone dot, and for a path that is
just two dots). -/

/-- The scan state of the extname loop. -/
structure ExtScan where
  startDot : Int
  startPart : Int
  endIdx : Int
  matchedSlash : Bool
  preDotState : Int
deriving Repr

/-- One pass of the extname scan, walking the character list from the end
toward the front; the Nat argument is the index one past the character
examined next. -/
def extnameLoop (cs : List Char) : Nat → ExtScan → ExtScan
  | 0, st => st
  | n + 1, st =>
    let c := cs.getD n ' '
    if c = '/' then
      if !st.matchedSlash then { st with startPart := (n : Int) + 1 }
      else extnameLoop cs n st
    else
      let st1 :=
        if st.endIdx = -1 then
          { st with matchedSlash := false, endIdx := (n : Int) + 1 }
        else st
      let st2 :=
        if c = '.' then
          if st1.startDot = -1 then { st1 with startDot := (n : Int) }
          else if st1.preDotState ≠ 1 then { st1 with preDotState := 1 }
          else st1
        else if st1.startDot ≠ -1 then { st1 with preDotState := -1 }
        else st1
      extnameLoop cs n st2

/-- path.extname for posix paths. -/
def extname (p : String) : String :=
  let cs := p.toList
  let st := extnameLoop cs cs.length ⟨-1, 0, -1, true, 0⟩
  if st.startDot = -1 ∨ st.endIdx = -1 ∨ st.preDotState = 0 ∨
      (st.preDotState = 1 ∧ st.startDot = st.endIdx - 1 ∧
        st.startDot = st.startPart + 1) then
    ""
  else
    String.mk ((cs.drop st.startDot.toNat).take (st.endIdx - st.startDot).toNat)

/-! ### getMimeType (TwitterPollBot.ts lines 69 to 85) -/

/-- The fixed extension-to-MIME table. -/
def mimeTypes : List (String × String) :=
  [(".png", "image/png"), (".jpg", "image/jpeg"), (".jpeg", "image/jpeg"),
   (".gif", "image/gif"), (".webp", "image/webp")]

/-- The host-language lowercase conversion applied to the extension,
modelled as a character-wise ASCII lowercase map. -/
def jsToLowerCase (s : String) : String :=
  String.mk (s.toList.map Char.toLower)

/-- getMimeType: lowercase the extension, look it up in the fixed table,
fail with UnsupportedFormat when absent. -/
def getMimeType (filePath : String) : Except PollError String :=
  let ext := jsToLowerCase (extname filePath)
  match mimeTypes.lookup ext with
  | some m => .ok m
  | none => .error (.unsupportedFormat ext)

/-! ### duration computation (TwitterPollBot.ts lines 59 and 173) -/

/-- The defaultDurationHours field set in the constructor:
config.defaultDurationHours OR-fallback 24 (truthiness-based). -/
def mkDefaultDurationHours : Option JSNum → ℚ
  | some (.val q) => if q = 0 then 24 else q
  | some .nan => 24
  | none => 24

/-- Line 173: (pollData.durationHours OR defaultDurationHours) times 60.
The OR is the host-language truthy fallback: absent, NaN and 0 all fall
back to the default. -/
def durationMinutes (pd : PollData) (defaultDurationHours : ℚ) : ℚ :=
  (match pd.durationHours with
   | some (.val q) => if q = 0 then defaultDurationHours else q
   | some .nan => defaultDurationHours
   | none => defaultDurationHours) * 60

/-! ### uploadImage (TwitterPollBot.ts lines 128 to 152)

The code reads the file first (fs.readFile on line 130) and resolves the
MIME type afterwards (line 131); both the result and the ordered effect
trace reflect that. -/

/-- uploadImage: read the file, resolve the MIME type, upload the bytes.
Returns the media id and the ordered list of effects performed. -/
def uploadImage (env : Env) (imagePath : String) :
    Except PollError String × List Effect :=
  match env.readFile imagePath with
  | .error e => (.error e, [.fileRead imagePath])
  | .ok _size =>
    match getMimeType imagePath with
    | .error e => (.error e, [.fileRead imagePath])
    | .ok mime =>
      match env.uploadResult with
      | .error e => (.error e, [.fileRead imagePath, .netUpload mime])
      | .ok mediaId => (.ok mediaId, [.fileRead imagePath, .netUpload mime])

/-! ### createPoll (TwitterPollBot.ts lines 160 to 236) -/

/-- The fixed placeholder body of the poll tweet when it replies to an
image post (line 189). -/
def pollPlaceholder : String := "投票をお願いします！"

/-- The final tweet of createPoll (lines 188 to 200): body is the
placeholder when a truthy reply target exists, the title otherwise; the
reply field is set only for a truthy reply target. replyTo is none when
reply_to is undefined or the empty string. -/
def postPollTweet (env : Env) (pd : PollData) (duration : ℚ)
    (replyTo : Option String) (effs : List Effect) :
    Except PollError String × List Effect :=
  let params : TweetParams :=
    { text := match replyTo with | some _ => pollPlaceholder | none => pd.title,
      poll := some { options := pd.options, duration_minutes := duration },
      reply := replyTo,
      media := none }
  match env.pollPostResult with
  | .error e => (.error e, effs ++ [.netTweet params])
  | .ok id => (.ok id, effs ++ [.netTweet params])

/-- createPoll: verify credentials, validate title and options, compute the
duration, optionally upload the image and post it as its own tweet, then
post the poll tweet. Returns the result and the ordered effect trace. -/
def createPoll (env : Env) (defaultDurationHours : ℚ) (pd : PollData) :
    Except PollError String × List Effect :=
  match env.verifyResult with
  | .error e => (.error e, [Effect.netIdentity])
  | .ok _ =>
    if pd.title = "" ∨ pd.options.length = 0 then
      (.error .invalidPollData, [Effect.netIdentity])
    else if 4 < pd.options.length then
      (.error .invalidPollData, [Effect.netIdentity])
    else
      let duration := durationMinutes pd defaultDurationHours
      match pd.imagePath with
      | none => postPollTweet env pd duration none [Effect.netIdentity]
      | some p =>
        if p = "" then postPollTweet env pd duration none [Effect.netIdentity]
        else
          match uploadImage env p with
          | (.error e, effs) => (.error e, Effect.netIdentity :: effs)
          | (.ok mediaId, effs) =>
            let imgParams : TweetParams :=
              { text := pd.title, poll := none, reply := none,
                media := some [mediaId] }
            match env.imagePostResult with
            | .error e =>
              (.error e, Effect.netIdentity :: effs ++ [.netTweet imgParams])
            | .ok imgId =>
              postPollTweet env pd duration
                (if imgId = "" then none else some imgId)
                (Effect.netIdentity :: effs ++ [.netTweet imgParams])

/-! ### the scheduler (TwitterPollBot.ts lines 244 to 296)

The bot state is the scheduledPolls list plus the set of timers that the
runtime still holds armed; a fresh timer id is drawn from a counter. A
deferred invocation can only fire while its timer id is armed. -/

/-- One entry of the scheduledPolls list. -/
structure ScheduledPoll where
  pollData : PollData
  scheduledTime : Int
  timer : Nat
deriving DecidableEq, Repr

/-- The mutable state of the bot relevant to scheduling. -/
structure BotState where
  scheduledPolls : List ScheduledPoll
  activeTimers : List Nat
  nextTimer : Nat
deriving DecidableEq, Repr

/-- The state of a freshly constructed bot. -/
def initState : BotState := ⟨[], [], 0⟩

/-- schedulePoll: verify credentials, reject a fire time not strictly in
the future, otherwise push a new entry with an armed timer. Returns the
new state and the outcome; on failure the state is returned unchanged.
Times are epoch milliseconds. -/
def schedulePoll (verifyResult : Except PollError Unit) (pd : PollData)
    (scheduledTime now : Int) (s : BotState) :
    BotState × Except PollError Unit :=
  match verifyResult with
  | .error e => (s, .error e)
  | .ok _ =>
    if scheduledTime ≤ now then (s, .error .invalidSchedule)
    else
      ({ scheduledPolls := s.scheduledPolls ++ [⟨pd, scheduledTime, s.nextTimer⟩],
         activeTimers := s.activeTimers ++ [s.nextTimer],
         nextTimer := s.nextTimer + 1 }, .ok ())

/-- cancelScheduledPolls: clearTimeout on the timer of every entry of the
list, then replace the list by the empty one. -/
def cancelScheduledPolls (s : BotState) : BotState :=
  { scheduledPolls := [],
    activeTimers :=
      s.activeTimers.filter
        (fun t => !(s.scheduledPolls.any (fun e => e.timer == t))),
    nextTimer := s.nextTimer }

/-- A timer can fire exactly while the runtime still holds it armed. -/
def canFire (s : BotState) (t : Nat) : Bool :=
  s.activeTimers.any (fun x => x == t)

/-- Natural firing of timer t: the runtime disarms the spent timer and
runs the deferred createPoll; the scheduledPolls list is not touched by
the callback (lines 266 to 274 only call createPoll and log). -/
def fireTimer (s : BotState) (t : Nat) : BotState :=
  { s with activeTimers := s.activeTimers.filter (fun x => x != t) }

/-- The arguments of one schedulePoll call, including the outcome the
credential check had at that moment. -/
structure ScheduleCall where
  verifyResult : Except PollError Unit
  pollData : PollData
  scheduledTime : Int
  now : Int

/-- Run a sequence of schedulePoll calls, threading the state. -/
def runSchedules : BotState → List ScheduleCall → BotState
  | s, [] => s
  | s, c :: rest =>
    runSchedules (schedulePoll c.verifyResult c.pollData c.scheduledTime c.now s).1 rest

/-! ### the retry wrapper (src/src/index.ts lines 26 to 42) -/

/-- The fixed inter-attempt delay of the retry loop, in milliseconds. -/
def retryDelayMs : Nat := 60000

/-- Decidable equality of Except values, needed to evaluate outcomes. -/
instance {ε α : Type} [DecidableEq ε] [DecidableEq α] :
    DecidableEq (Except ε α) := fun x y =>
  match x, y with
  | .error a, .error b =>
    decidable_of_iff (a = b)
      (by constructor
          · intro h; rw [h]
          · intro h; cases h; rfl)
  | .error _, .ok _ => .isFalse (by intro h; cases h)
  | .ok _, .error _ => .isFalse (by intro h; cases h)
  | .ok a, .ok b =>
    decidable_of_iff (a = b)
      (by constructor
          · intro h; rw [h]
          · intro h; cases h; rfl)

/-- The observable outcome of one createPollWithRetry run: final result,
number of attempts made, number of inter-attempt delays taken, and the
one-based indices of the attempts that were logged as failed, in order. -/
structure RetryOutcome (E : Type) where
  result : Except E Unit
  attempts : Nat
  delays : Nat
  logged : List Nat
deriving DecidableEq, Repr

/-- The retry loop body: attempt i is tried while rem attempts remain; a
failure is logged with index i + 1, the error is re-raised when it was the
last attempt, otherwise a delay is taken and the loop continues. -/
def retryLoop {E : Type} (attempt : Nat → Except E Unit) :
    Nat → Nat → RetryOutcome E
  | _, 0 => ⟨.ok (), 0, 0, []⟩
  | i, rem + 1 =>
    match attempt i with
    | .ok _ => ⟨.ok (), 1, 0, []⟩
    | .error e =>
      if rem = 0 then ⟨.error e, 1, 0, [i + 1]⟩
      else
        let r := retryLoop attempt (i + 1) rem
        ⟨r.result, r.attempts + 1, r.delays + 1, (i + 1) :: r.logged⟩

/-- createPollWithRetry with the attempts supplied as a function from the
zero-based attempt index to its outcome. -/
def createPollWithRetry {E : Type} (attempt : Nat → Except E Unit)
    (retries : Nat) : RetryOutcome E :=
  retryLoop attempt 0 retries

/-! ### concrete demo inputs used in counterexamples and witnesses -/

/-- An environment in which every remote call succeeds and every file
read returns three bytes. -/
def envOk : Env := ⟨.ok (), fun _ => .ok 3, .ok "m1", .ok "t1", .ok "t2"⟩

/-- A minimal valid poll definition. -/
def demoPoll : PollData := ⟨"T", ["A", "B"], none, none⟩

/-- A valid poll definition with a one-hour duration and a png image. -/
def demoImagePoll : PollData := ⟨"T", ["A", "B"], some (.val 1), some "pic.png"⟩

/-- The invariant tying the armed timers to the registry: the runtime
holds exactly the timers of the registered entries (true as long as no
timer has fired). -/
def timersMatch (s : BotState) : Prop :=
  s.activeTimers = s.scheduledPolls.map (fun e => e.timer)

/-! ## Theorems -/

/-- The effect trace of postPollTweet is the incoming trace followed by
exactly one tweet call carrying the poll payload. -/
theorem postPollTweet_effects (env : Env) (pd : PollData) (dur : ℚ)
    (r : Option String) (effs : List Effect) :
    (postPollTweet env pd dur r effs).2 =
      effs ++ [Effect.netTweet
        { text := match r with | some _ => pollPlaceholder | none => pd.title,
          poll := some { options := pd.options, duration_minutes := dur },
          reply := r, media := none }] := by
  cases h : env.pollPostResult <;> simp [postPollTweet, h]

/-- Claim C1, counterexample: with successfully verifying credentials and
an empty title, createPoll does fail with InvalidPollData, but the effect
trace is not empty — the credential-verification identity call has
already been issued, so the claim that zero network calls occur is false. -/
theorem c1_counterexample :
    (createPoll envOk 24 ⟨"", ["A", "B"], none, none⟩).1 =
      .error .invalidPollData ∧
    (createPoll envOk 24 ⟨"", ["A", "B"], none, none⟩).2 ≠ [] := by
  exact ⟨rfl, by decide⟩

/-- Claim C1 (amended): with successfully verifying credentials, a poll
definition with empty title, zero options or more than four options makes
createPoll fail with InvalidPollData after exactly one network call, the
identity lookup of the credential check, and before any upload or post
call; a definition with non-empty title and one to four options proceeds
past validation, producing further effects beyond the identity call. -/
theorem c1_amended_validation (env : Env) (dflt : ℚ) (pd : PollData)
    (hv : env.verifyResult = .ok ()) :
    ((pd.title = "" ∨ pd.options.length = 0 ∨ 4 < pd.options.length) →
      createPoll env dflt pd = (.error .invalidPollData, [Effect.netIdentity])) ∧
    (pd.title ≠ "" → pd.options.length ≠ 0 → pd.options.length ≤ 4 →
      2 ≤ (createPoll env dflt pd).2.length) := by
  have hupload : ∀ p, 1 ≤ (uploadImage env p).2.length := by
    intro p
    unfold uploadImage
    cases env.readFile p with
    | error e => simp
    | ok n =>
      cases getMimeType p with
      | error e => simp
      | ok mime => cases env.uploadResult <;> simp
  constructor
  · rintro (h | h | h)
    · simp [createPoll, hv, h]
    · simp [createPoll, hv, h]
    · by_cases ht : pd.title = ""
      · simp [createPoll, hv, ht]
      · have h0 : ¬ pd.options.length = 0 := by omega
        simp [createPoll, hv, ht, h0, h]
  · intro ht h0 h4
    have h4x : ¬ 4 < pd.options.length := by omega
    cases hp : pd.imagePath with
    | none =>
      simp [createPoll, hv, ht, h0, h4x, hp, postPollTweet_effects]
    | some p =>
      by_cases hpe : p = ""
      · simp [createPoll, hv, ht, h0, h4x, hp, hpe, postPollTweet_effects]
      · have h1 := hupload p
        rcases hu : uploadImage env p with ⟨res, effs⟩
        rw [hu] at h1
        simp only at h1
        cases res with
        | error e =>
          simp [createPoll, hv, ht, h0, h4x, hp, hpe, hu]
          exact h1
        | ok mediaId =>
          cases hi : env.imagePostResult with
          | error e =>
            simp [createPoll, hv, ht, h0, h4x, hp, hpe, hu, hi]
          | ok imgId =>
            simp [createPoll, hv, ht, h0, h4x, hp, hpe, hu, hi,
              postPollTweet_effects]

/-- Claim C1 witness: the amended theorem applied to a concrete
environment and to concrete valid and invalid definitions. -/
theorem c1_amended_validation_witness :
    envOk.verifyResult = .ok () ∧
    createPoll envOk 24 ⟨"", ["A", "B"], none, none⟩ =
      (.error .invalidPollData, [Effect.netIdentity]) ∧
    2 ≤ (createPoll envOk 24 demoPoll).2.length := by
  refine ⟨rfl, ?_, ?_⟩
  · exact (c1_amended_validation envOk 24 ⟨"", ["A", "B"], none, none⟩ rfl).1
      (Or.inl rfl)
  · exact (c1_amended_validation envOk 24 demoPoll rfl).2
      (by decide) (by decide) (by decide)

/-- Claim C2, counterexample: for the unsupported extension .bmp the
upload fails with UnsupportedFormat, but the effect trace already holds
one file read — fs.readFile runs on line 130, before the MIME resolution
on line 131 — so the claim that zero file reads occur is false. -/
theorem c2_counterexample :
    (uploadImage envOk "img.bmp").1 = .error (.unsupportedFormat ".bmp") ∧
    (uploadImage envOk "img.bmp").2 = [Effect.fileRead "img.bmp"] := by
  exact ⟨by decide, by decide⟩

/-- Claim C2 (amended): for every file path whose extension is not in the
fixed table, if the file read succeeds, the upload fails with
UnsupportedFormat after exactly one file read and before any network
call: the read precedes the extension check. -/
theorem c2_amended_upload (env : Env) (p : String) (n : Nat) (ext0 : String)
    (hread : env.readFile p = .ok n)
    (hmime : getMimeType p = .error (.unsupportedFormat ext0)) :
    uploadImage env p = (.error (.unsupportedFormat ext0), [Effect.fileRead p]) := by
  simp [uploadImage, hread, hmime]

/-- Claim C2 witness: the amended theorem applied to the concrete
environment and the concrete path img.bmp. -/
theorem c2_amended_upload_witness :
    envOk.readFile "img.bmp" = .ok 3 ∧
    getMimeType "img.bmp" = .error (.unsupportedFormat ".bmp") ∧
    uploadImage envOk "img.bmp" =
      (.error (.unsupportedFormat ".bmp"), [Effect.fileRead "img.bmp"]) :=
  ⟨rfl, by decide, c2_amended_upload envOk "img.bmp" 3 ".bmp" rfl (by decide)⟩

/-- Claim C3, counterexample: schedule one poll, then let its timer fire
naturally; the timer is spent, yet the registry still contains the entry,
so the claim that firing removes the entry from the registry is false. -/
theorem c3_counterexample :
    (fireTimer (schedulePoll (.ok ()) demoPoll 100 0 initState).1 0).scheduledPolls =
      [⟨demoPoll, 100, 0⟩] ∧
    canFire (fireTimer (schedulePoll (.ok ()) demoPoll 100 0 initState).1 0) 0 =
      false := by
  exact ⟨by decide, by decide⟩

/-- Claim C3 (amended): on natural firing the timer handle is spent and
released, but the entry itself stays in the registry; entries are removed
from the registry only by cancellation, which empties it. -/
theorem c3_amended_registry (s : BotState) (t : Nat) :
    (fireTimer s t).scheduledPolls = s.scheduledPolls ∧
    canFire (fireTimer s t) t = false ∧
    (cancelScheduledPolls s).scheduledPolls = [] := by
  refine ⟨rfl, ?_, rfl⟩
  rw [Bool.eq_false_iff]
  intro h
  rcases List.any_eq_true.mp h with ⟨x, hx, hbeq⟩
  rcases List.mem_filter.mp hx with ⟨_, hne⟩
  simp at hbeq hne
  exact hne hbeq

/-- Claim C4: with verified credentials and a valid definition, if no
image path is given the poll tweet carries the literal title with the
poll attached and no reply or media fields; if a truthy image path is
given and the upload and image post succeed, the image tweet carries the
title and the media id, and the poll tweet carries the fixed placeholder
body, the poll block, and the reply reference to the image tweet. -/
theorem c4_poll_post_shape (env : Env) (dflt : ℚ) (pd : PollData)
    (hv : env.verifyResult = .ok ())
    (ht : pd.title ≠ "") (h0 : pd.options.length ≠ 0)
    (h4 : pd.options.length ≤ 4) :
    (pd.imagePath = none →
      (createPoll env dflt pd).2 =
        [Effect.netIdentity,
         Effect.netTweet
           { text := pd.title,
             poll := some { options := pd.options,
                            duration_minutes := durationMinutes pd dflt },
             reply := none, media := none }]) ∧
    (∀ p mediaId imgId n mime,
      pd.imagePath = some p → p ≠ "" →
      env.readFile p = .ok n → getMimeType p = .ok mime →
      env.uploadResult = .ok mediaId →
      env.imagePostResult = .ok imgId → imgId ≠ "" →
      (createPoll env dflt pd).2 =
        [Effect.netIdentity, Effect.fileRead p, Effect.netUpload mime,
         Effect.netTweet
           { text := pd.title, poll := none, reply := none,
             media := some [mediaId] },
         Effect.netTweet
           { text := pollPlaceholder,
             poll := some { options := pd.options,
                            duration_minutes := durationMinutes pd dflt },
             reply := some imgId, media := none }]) := by
  have h4x : ¬ 4 < pd.options.length := by omega
  constructor
  · intro hp
    simp [createPoll, hv, ht, h0, h4x, hp, postPollTweet_effects]
  · intro p mediaId imgId n mime hp hpe hread hmime hup himg himgne
    simp [createPoll, hv, ht, h0, h4x, hp, hpe, uploadImage, hread, hmime,
      hup, himg, himgne, postPollTweet_effects]

/-- Claim C4 witness: the theorem applied to the concrete environment and
to concrete definitions without and with an image. -/
theorem c4_poll_post_shape_witness :
    (createPoll envOk 24 demoPoll).2 =
      [Effect.netIdentity,
       Effect.netTweet
         { text := "T",
           poll := some { options := ["A", "B"], duration_minutes := 24 * 60 },
           reply := none, media := none }] ∧
    (createPoll envOk 24 demoImagePoll).2 =
      [Effect.netIdentity, Effect.fileRead "pic.png",
       Effect.netUpload "image/png",
       Effect.netTweet
         { text := "T", poll := none, reply := none, media := some ["m1"] },
       Effect.netTweet
         { text := pollPlaceholder,
           poll := some { options := ["A", "B"], duration_minutes := 1 * 60 },
           reply := some "t1", media := none }] := by
  constructor
  · have h := (c4_poll_post_shape envOk 24 demoPoll rfl (by decide) (by decide)
      (by decide)).1 rfl
    simpa [demoPoll, durationMinutes] using h
  · have h := (c4_poll_post_shape envOk 24 demoImagePoll rfl (by decide)
      (by decide) (by decide)).2 "pic.png" "m1" "t1" 3 "image/png"
      rfl (by decide) rfl (by decide) rfl rfl (by decide)
    simpa [demoImagePoll, durationMinutes] using h

/-- Claim C5: for every supplied positive duration (integer or
fractional, modelled as an exact rational) the computed duration is
exactly that value times 60, and with no supplied duration it is exactly
the configured default times 60. -/
theorem c5_duration_exact (pd : PollData) (dflt : ℚ) :
    (∀ q : ℚ, pd.durationHours = some (.val q) → 0 < q →
      durationMinutes pd dflt = q * 60) ∧
    (pd.durationHours = none → durationMinutes pd dflt = dflt * 60) := by
  constructor
  · intro q hq hpos
    have hne : q ≠ 0 := ne_of_gt hpos
    simp [durationMinutes, hq, hne]
  · intro h
    simp [durationMinutes, h]

/-- Claim C5 witness: the theorem applied to a fractional duration of
three halves of an hour and to an absent duration with default 24. -/
theorem c5_duration_exact_witness :
    durationMinutes ⟨"T", ["A"], some (.val (3 / 2)), none⟩ 24 = (3 / 2) * 60 ∧
    durationMinutes demoPoll 24 = 24 * 60 := by
  constructor
  · exact (c5_duration_exact ⟨"T", ["A"], some (.val (3 / 2)), none⟩ 24).1
      (3 / 2) rfl (by norm_num)
  · exact (c5_duration_exact demoPoll 24).2 rfl

/-- Claim C7: with verified credentials, schedulePoll called with a fire
time in the past or equal to now fails with InvalidSchedule and returns
the state unchanged: nothing is registered and no timer is armed. -/
theorem c7_invalid_schedule (pd : PollData) (scheduledTime now : Int)
    (s : BotState) (h : scheduledTime ≤ now) :
    schedulePoll (.ok ()) pd scheduledTime now s =
      (s, .error .invalidSchedule) := by
  simp [schedulePoll, h]

/-- Claim C7 witness: the theorem applied at fire time 50 and now 100. -/
theorem c7_invalid_schedule_witness :
    (50 : Int) ≤ 100 ∧
    schedulePoll (.ok ()) demoPoll 50 100 initState =
      (initState, .error .invalidSchedule) :=
  ⟨by decide, c7_invalid_schedule demoPoll 50 100 initState (by decide)⟩

/-- Claim C9: MIME resolution is case-insensitive on the extension: any
two paths whose extensions agree after lowercasing resolve to the same
result, so an uppercase variant of a supported extension resolves to the
same MIME type as its lowercase form. -/
theorem c9_mime_case_insensitive (p q : String)
    (h : jsToLowerCase (extname p) = jsToLowerCase (extname q)) :
    getMimeType p = getMimeType q := by
  simp only [getMimeType, h]

/-- Claim C9 witness: the theorem applied to a.PNG and a.png, whose
common resolution is image/png. -/
theorem c9_mime_case_insensitive_witness :
    jsToLowerCase (extname "a.PNG") = jsToLowerCase (extname "a.png") ∧
    getMimeType "a.PNG" = getMimeType "a.png" ∧
    getMimeType "a.png" = .ok "image/png" :=
  ⟨by decide, c9_mime_case_insensitive "a.PNG" "a.png" (by decide), by decide⟩

/-- Claim C10: a supplied duration of 0 hours, or a NaN duration, falls
back to the configured default (the fallback on line 173 is
truthiness-based, not presence-based), so the computed duration equals
the default times 60 and is never 0 — the constructor default from line
59 is itself never 0. -/
theorem c10_falsy_duration_fallback (cfg : Option JSNum) (pd : PollData)
    (h : pd.durationHours = some (.val 0) ∨ pd.durationHours = some .nan) :
    durationMinutes pd (mkDefaultDurationHours cfg) =
      mkDefaultDurationHours cfg * 60 ∧
    durationMinutes pd (mkDefaultDurationHours cfg) ≠ 0 := by
  have hd : mkDefaultDurationHours cfg ≠ 0 := by
    match cfg with
    | none => norm_num [mkDefaultDurationHours]
    | some .nan => norm_num [mkDefaultDurationHours]
    | some (.val q) =>
      by_cases hq : q = 0 <;> simp [mkDefaultDurationHours, hq]
  have heq : durationMinutes pd (mkDefaultDurationHours cfg) =
      mkDefaultDurationHours cfg * 60 := by
    rcases h with h | h <;> simp [durationMinutes, h]
  exact ⟨heq, heq ▸ mul_ne_zero hd (by norm_num)⟩

/-- Claim C10 witness: the theorem applied to a supplied zero duration
with an absent configured default, which falls back to 24 hours. -/
theorem c10_falsy_duration_fallback_witness :
    durationMinutes ⟨"T", ["A"], some (.val 0), none⟩
        (mkDefaultDurationHours none) =
      mkDefaultDurationHours none * 60 ∧
    durationMinutes ⟨"T", ["A"], some (.val 0), none⟩
        (mkDefaultDurationHours none) ≠ 0 :=
  c10_falsy_duration_fallback none ⟨"T", ["A"], some (.val 0), none⟩
    (Or.inl rfl)

/-- One unfolding step of the retry loop in the failing, not-last case:
the failure is logged, a delay is taken, and the loop continues at the
next index. -/
theorem retryLoop_cons {E : Type} (attempt : Nat → Except E Unit)
    (i r : Nat) (e : E) (he : attempt i = .error e) (hr : r ≠ 0) :
    retryLoop attempt i (r + 1) =
      ⟨(retryLoop attempt (i + 1) r).result,
       (retryLoop attempt (i + 1) r).attempts + 1,
       (retryLoop attempt (i + 1) r).delays + 1,
       (i + 1) :: (retryLoop attempt (i + 1) r).logged⟩ := by
  simp [retryLoop, he, hr]

/-- If every attempt fails, the retry loop started at index i with rem
remaining attempts makes exactly rem attempts, logs the one-based indices
of all of them, takes rem minus one delays, and re-raises the error of
the last attempt unchanged. -/
theorem retryLoop_all_fail {E : Type} (attempt : Nat → Except E Unit)
    (f : Nat → E) (hf : ∀ j, attempt j = .error (f j)) :
    ∀ rem i, 1 ≤ rem →
      retryLoop attempt i rem =
        ⟨.error (f (i + rem - 1)), rem, rem - 1, List.range' (i + 1) rem⟩ := by
  intro rem
  induction rem with
  | zero => intro i h; omega
  | succ r ih =>
    intro i _
    cases r with
    | zero =>
      simp [retryLoop, hf i, List.range']
    | succ r2 =>
      have hrec := ih (i + 1) (by omega)
      have harg : i + 1 + (r2 + 1) - 1 = i + (r2 + 1 + 1) - 1 := by omega
      rw [retryLoop_cons attempt i (r2 + 1) (f i) (hf i) (by omega), hrec]
      simp [List.range'_succ, harg]

/-- If the first k attempts fail and attempt k succeeds within the
budget, the retry loop makes exactly k plus one attempts, takes k delays,
logs the k failures, and succeeds. -/
theorem retryLoop_success {E : Type} (attempt : Nat → Except E Unit) :
    ∀ k i rem, (∀ j, j < k → ∃ e, attempt (i + j) = .error e) →
      attempt (i + k) = .ok () → k < rem →
      retryLoop attempt i rem = ⟨.ok (), k + 1, k, List.range' (i + 1) k⟩ := by
  intro k
  induction k with
  | zero =>
    intro i rem _ hok hlt
    cases rem with
    | zero => omega
    | succ r =>
      have h0 : attempt i = .ok () := by simpa using hok
      simp [retryLoop, h0, List.range']
  | succ k ih =>
    intro i rem hfail hok hlt
    cases rem with
    | zero => omega
    | succ r =>
      rcases hfail 0 (by omega) with ⟨e, he⟩
      have he2 : attempt i = .error e := by simpa using he
      have hok2 : attempt (i + 1 + k) = .ok () := by
        have hx : i + 1 + k = i + (k + 1) := by omega
        rw [hx]; exact hok
      have hfail2 : ∀ j, j < k → ∃ e2, attempt (i + 1 + j) = .error e2 := by
        intro j hj
        rcases hfail (j + 1) (by omega) with ⟨e2, he3⟩
        refine ⟨e2, ?_⟩
        have hx : i + 1 + j = i + (j + 1) := by omega
        rw [hx]; exact he3
      have hrec := ih (i + 1) r hfail2 hok2 (by omega)
      have hr : r ≠ 0 := by omega
      rw [retryLoop_cons attempt i r e he2 hr, hrec]
      simp [List.range'_succ]

/-- Claim C6: the retry wrapper with N attempts either makes exactly N
attempts when every attempt fails — logging each failed attempt with its
one-based index, taking a delay between consecutive attempts (N minus one
delays), and re-raising the error of the final attempt unchanged — or,
when the first success comes at zero-based attempt k, stops after k plus
one attempts with the call succeeding. -/
theorem c6_retry_behavior {E : Type} (attempt : Nat → Except E Unit)
    (N k : Nat) (f : Nat → E) :
    ((∀ j, attempt j = .error (f j)) → 1 ≤ N →
      createPollWithRetry attempt N =
        ⟨.error (f (N - 1)), N, N - 1, List.range' 1 N⟩) ∧
    ((∀ j, j < k → ∃ e, attempt j = .error e) → attempt k = .ok () →
      k < N →
      createPollWithRetry attempt N =
        ⟨.ok (), k + 1, k, List.range' 1 k⟩) := by
  constructor
  · intro hf hN
    have h := retryLoop_all_fail attempt f hf N 0 hN
    simpa [createPollWithRetry] using h
  · intro hfail hok hlt
    have hfail0 : ∀ j, j < k → ∃ e, attempt (0 + j) = .error e := by
      intro j hj; simpa using hfail j hj
    have hok0 : attempt (0 + k) = .ok () := by simpa using hok
    have h := retryLoop_success attempt k 0 N hfail0 hok0 hlt
    simpa [createPollWithRetry] using h

/-- Claim C6 witness: a stub that fails twice then succeeds makes exactly
3 attempts with 2 delays, and a stub that always fails makes exactly 3
attempts, logs all three, and re-raises the final error. -/
theorem c6_retry_behavior_witness :
    createPollWithRetry
        (fun i => if i < 2 then (.error "boom" : Except String Unit)
                  else .ok ()) 3 =
      ⟨.ok (), 2 + 1, 2, List.range' 1 2⟩ ∧
    createPollWithRetry (fun _ => (.error "down" : Except String Unit)) 3 =
      ⟨.error "down", 3, 3 - 1, List.range' 1 3⟩ := by
  constructor
  · exact (c6_retry_behavior
      (fun i => if i < 2 then (.error "boom" : Except String Unit) else .ok ())
      3 2 (fun _ => "boom")).2
      (fun j hj => ⟨"boom", by simp [hj]⟩) (by simp) (by omega)
  · exact (c6_retry_behavior (fun _ => (.error "down" : Except String Unit))
      3 0 (fun _ => "down")).1 (fun j => rfl) (by omega)

/-- One schedulePoll call preserves the invariant that the armed timers
are exactly the timers of the registered entries. -/
theorem timersMatch_schedulePoll (vr : Except PollError Unit) (pd : PollData)
    (st now : Int) (s : BotState) (h : timersMatch s) :
    timersMatch (schedulePoll vr pd st now s).1 := by
  cases vr with
  | error e => simpa [schedulePoll] using h
  | ok u =>
    by_cases hle : st ≤ now
    · simpa [schedulePoll, hle] using h
    · have hm : s.activeTimers = s.scheduledPolls.map (fun e => e.timer) := h
      simp [schedulePoll, hle, timersMatch, List.map_append, hm]

/-- Any sequence of schedulePoll calls from a state satisfying the timer
invariant preserves it. -/
theorem timersMatch_runSchedules (calls : List ScheduleCall) :
    ∀ s, timersMatch s → timersMatch (runSchedules s calls) := by
  induction calls with
  | nil => intro s h; simpa [runSchedules] using h
  | cons c rest ih =>
    intro s h
    have h2 := timersMatch_schedulePoll c.verifyResult c.pollData
      c.scheduledTime c.now s h
    simpa [runSchedules] using ih _ h2

/-- Under the timer invariant, cancellation disarms every timer: the
armed-timer list of the cancelled state is empty. -/
theorem cancel_active_nil (s : BotState) (h : timersMatch s) :
    (cancelScheduledPolls s).activeTimers = [] := by
  simp only [cancelScheduledPolls]
  rw [List.filter_eq_nil_iff]
  intro t ht
  have hm : s.activeTimers = s.scheduledPolls.map (fun e => e.timer) := h
  rw [hm] at ht
  rcases List.mem_map.mp ht with ⟨e, he, rfl⟩
  have hany : s.scheduledPolls.any (fun x => x.timer == e.timer) = true :=
    List.any_eq_true.mpr ⟨e, he, by simp⟩
  simp [hany]

/-- Cancellation is idempotent on the bot state. -/
theorem cancel_idem (s : BotState) :
    cancelScheduledPolls (cancelScheduledPolls s) = cancelScheduledPolls s := by
  simp [cancelScheduledPolls]

/-- Claim C8: after any sequence of schedulePoll calls from the initial
state, one cancelScheduledPolls call empties the registry and disarms
every timer, so no deferred invocation can fire any more; a second
cancellation on the already-cancelled state changes nothing. -/
theorem c8_cancel_all (calls : List ScheduleCall) :
    (cancelScheduledPolls (runSchedules initState calls)).scheduledPolls = [] ∧
    (∀ t, canFire (cancelScheduledPolls (runSchedules initState calls)) t =
      false) ∧
    cancelScheduledPolls (cancelScheduledPolls (runSchedules initState calls)) =
      cancelScheduledPolls (runSchedules initState calls) := by
  have hinv : timersMatch (runSchedules initState calls) :=
    timersMatch_runSchedules calls initState rfl
  have hnil := cancel_active_nil _ hinv
  refine ⟨rfl, ?_, cancel_idem _⟩
  intro t
  simp [canFire, hnil]
